import Mathlib

/-!
Verification of the data-aggregation pipeline of the Azure AI dashboard
backend (`azure_realtime_backend.js`, class `AzureAIRealtimeService`).

Modelling conventions, used throughout:
* JS numbers are modelled by `ℚ` (exact rationals); token/request counts,
  which the code produces with `Math.floor`, are modelled by `ℤ`.
* External I/O (HTTP fetches, the OAuth token exchange, `Math.random`,
  `Date.now`) is modelled by explicit outcome/environment parameters.
  A fetch that throws, returns a non-2xx response, or whose body fails to
  parse is one `error` outcome: all those paths reach the same `catch`
  block in the source.
* The per-instance mutable fields (`this.cache` under its three string
  keys `pricing`, `usage`, `azure_token`, plus `this.exchangeRates` and
  `this.lastUpdate`) become fields of an explicit `ServiceState` record,
  and every method returns its result together with the updated state.
* JS regular expressions (used by `extractModelFromMeter`) are translated
  rule by rule into executable matchers on `List Char`; `.` excludes the
  JS line terminators, `(?! )` is negation at a position, and `test`
  is existence of a match.
-/

namespace Dashboard

/-! ## Character-level pattern matching

`extractModelFromMeter` tests a list of regular expressions against the
lower-cased concatenation of a meter name and a product name.  Every
regex used there is of one of four shapes, embedded below:
`A.*B`, `A(?!N).*B`, `A.*B.*C`, and `A(?!.*B)(?!o).*C`. -/

/-- Characters that the JS `.` (without the `s` flag) does not match. -/
def isLineTerm (c : Char) : Bool :=
  c = '\n' || c = '\r' || c = Char.ofNat 0x2028 || c = Char.ofNat 0x2029

/-- The literal `pat` occurs in `t` starting exactly at position `i`. -/
def strAt (pat t : List Char) (i : Nat) : Bool :=
  (t.drop i).take pat.length == pat

/-- Every character of `t` in positions `[a, b)` is matched by `.`. -/
def gapOk (t : List Char) (a b : Nat) : Bool :=
  ((t.drop a).take (b - a)).all (fun c => !(isLineTerm c))

/-- `/A.*B/.test t`: an occurrence of `a` followed (after a `.`-gap) by `b`. -/
def matchGap2 (a b t : List Char) : Bool :=
  (List.range (t.length + 1)).any (fun i =>
    strAt a t i &&
    (List.range (t.length + 1)).any (fun j =>
      decide (i + a.length ≤ j) && strAt b t j && gapOk t (i + a.length) j))

/-- `/A(?!N).*B/.test t`: like `matchGap2`, with a negative lookahead for
the literal `n` right after the occurrence of `a`. -/
def matchNegGap2 (a n b t : List Char) : Bool :=
  (List.range (t.length + 1)).any (fun i =>
    strAt a t i && !(strAt n t (i + a.length)) &&
    (List.range (t.length + 1)).any (fun j =>
      decide (i + a.length ≤ j) && strAt b t j && gapOk t (i + a.length) j))

/-- `/A.*B.*C/.test t`. -/
def matchGap3 (a b c t : List Char) : Bool :=
  (List.range (t.length + 1)).any (fun i =>
    strAt a t i &&
    (List.range (t.length + 1)).any (fun j =>
      decide (i + a.length ≤ j) && strAt b t j && gapOk t (i + a.length) j &&
      (List.range (t.length + 1)).any (fun k =>
        decide (j + b.length ≤ k) && strAt c t k && gapOk t (j + b.length) k)))

/-- `/gpt-4(?!.*turbo)(?!o).*D/.test t` — the plain `gpt-4` rules of the
source: an occurrence of `gpt-4` after which `.*turbo` does not match,
whose next character is not `o`, followed by the direction literal `d`. -/
def matchGpt4Plain (d t : List Char) : Bool :=
  let a := "gpt-4".data
  (List.range (t.length + 1)).any (fun i =>
    strAt a t i &&
    !((List.range (t.length + 1)).any (fun j =>
        decide (i + a.length ≤ j) && strAt "turbo".data t j && gapOk t (i + a.length) j)) &&
    !(strAt "o".data t (i + a.length)) &&
    (List.range (t.length + 1)).any (fun k =>
      decide (i + a.length ≤ k) && strAt d t k && gapOk t (i + a.length) k))

/-- `t.includes sub` of JS, on character lists. -/
def containsSub (sub t : List Char) : Bool :=
  (List.range (t.length + 1)).any (fun i => strAt sub t i)

/-! ## Model identification (source section 7) -/

/-- Direction of a price meter: input tokens or output tokens. -/
inductive Direction where
  | input : Direction
  | output : Direction
deriving DecidableEq, Repr

/-- JS `toLowerCase`, character-wise (`Char.toLower` lower-cases the ASCII
range, which is all the patterns inspect). -/
def jsToLower (s : String) : List Char :=
  s.data.map Char.toLower

/-- `searchText` of `extractModelFromMeter`: the lower-cased
`` `${meterName} ${productName}` ``. -/
def toSearchText (meterName productName : String) : List Char :=
  jsToLower (meterName ++ " " ++ productName)

/-- The ordered regex table of `extractModelFromMeter`, one entry per
source pattern, each as (matcher, canonical model, direction). -/
def pricingPatterns : List ((List Char → Bool) × String × Direction) :=
  [ (matchGap2 "gpt-4o-mini".data "input".data, "gpt-4o-mini", .input),
    (matchGap2 "gpt-4o-mini".data "output".data, "gpt-4o-mini", .output),
    (matchNegGap2 "gpt-4o".data "-mini".data "input".data, "gpt-4o", .input),
    (matchNegGap2 "gpt-4o".data "-mini".data "output".data, "gpt-4o", .output),
    (matchGap3 "gpt-4".data "turbo".data "input".data, "gpt-4-turbo", .input),
    (matchGap3 "gpt-4".data "turbo".data "output".data, "gpt-4-turbo", .output),
    (matchGpt4Plain "input".data, "gpt-4", .input),
    (matchGpt4Plain "output".data, "gpt-4", .output),
    (matchGap3 "gpt-35".data "turbo".data "input".data, "gpt-3.5-turbo", .input),
    (matchGap3 "gpt-35".data "turbo".data "output".data, "gpt-3.5-turbo", .output) ]

/-- `extractModelFromMeter(meterName, productName)`: first pattern of the
table that matches the search text wins; no match is `none` (`null`). -/
def extractModelFromMeter (meterName productName : String) : Option (String × Direction) :=
  let t := toSearchText meterName productName
  (pricingPatterns.find? (fun r => r.1 t)).map (fun r => r.2)

/-- `extractModelFromMeterName(meterName)`: substring tests in source
order; the argument is `Option`al because the JS guard `if (!meterName)`
also rejects `null`/`undefined` (and the empty string, which is falsy). -/
def extractModelFromMeterName (meterName : Option String) : Option String :=
  match meterName with
  | none => none
  | some m =>
    if m = "" then none
    else
      let t := jsToLower m
      if containsSub "gpt-4o-mini".data t then some "gpt-4o-mini"
      else if containsSub "gpt-4o".data t then some "gpt-4o"
      else if containsSub "gpt-4-turbo".data t || containsSub "gpt-4 turbo".data t then
        some "gpt-4-turbo"
      else if containsSub "gpt-4".data t then some "gpt-4"
      else if containsSub "gpt-35-turbo".data t || containsSub "gpt-3.5-turbo".data t then
        some "gpt-3.5-turbo"
      else none

/-! ## Pricing parsing (source section 6) -/

/-- One element of `rawData.Items` of the Azure Retail Prices response,
restricted to the fields `parsePricingData` reads. -/
structure RawPriceItem where
  meterName : String
  productName : String
  retailPrice : ℚ
  armRegionName : String
  currencyCode : String
deriving DecidableEq, Repr

/-- The per-model record built by `parsePricingData`; `none` models the
initial `null` prices. -/
structure PricingModel where
  name : String
  inputPrice : Option ℚ
  outputPrice : Option ℚ
  region : String
  currency : String
  status : String
  lastUpdated : String
deriving DecidableEq, Repr

/-- The fresh record `models.set(key, {...})` stores on first sight of a
canonical model; `now` is `new Date().toISOString()`. -/
def freshModel (key : String) (item : RawPriceItem) (now : String) : PricingModel :=
  { name := key, inputPrice := none, outputPrice := none,
    region := item.armRegionName, currency := item.currencyCode,
    status := "active", lastUpdated := now }

/-- `model.inputPrice = item.retailPrice` resp. `model.outputPrice = ...`. -/
def setPrice (m : PricingModel) (d : Direction) (p : ℚ) : PricingModel :=
  match d with
  | .input => { m with inputPrice := some p }
  | .output => { m with outputPrice := some p }

/-- `if (!models.has(key)) models.set(key, fresh)`: append the fresh
record at the end (JS `Map` preserves insertion order) when absent. -/
def ensureKey (models : List (String × PricingModel)) (key : String)
    (fresh : PricingModel) : List (String × PricingModel) :=
  if (models.find? (fun kv => kv.1 == key)).isSome then models
  else models ++ [(key, fresh)]

/-- `models.get(key).inputPrice = item.retailPrice` (resp. output): the
in-place mutation of the record stored under `key`. -/
def updateKey (models : List (String × PricingModel)) (key : String)
    (d : Direction) (p : ℚ) : List (String × PricingModel) :=
  models.map (fun kv => if kv.1 == key then (kv.1, setPrice kv.2 d p) else kv)

/-- The body of the `forEach` of `parsePricingData`, acting on the keyed
`models` map (an insertion-ordered association list, as a JS `Map`). -/
def stepPricing (now : String) (models : List (String × PricingModel))
    (item : RawPriceItem) : List (String × PricingModel) :=
  match extractModelFromMeter item.meterName item.productName with
  | none => models
  | some (key, d) =>
    updateKey (ensureKey models key (freshModel key item now)) key d item.retailPrice

/-- `parsePricingData(rawData)`: fold the items through the keyed map,
then keep the models whose input and output prices are both set. -/
def parsePricingData (now : String) (items : List RawPriceItem) : List PricingModel :=
  ((items.foldl (stepPricing now) []).map Prod.snd).filter
    (fun m => m.inputPrice.isSome && m.outputPrice.isSome)

/-! ## Usage parsing (source section 6) -/

/-- One entry of `usage[model].dailyData`. -/
structure DailyEntry where
  date : String
  cost : ℚ
  tokens : ℤ
deriving DecidableEq, Repr

/-- The per-model accumulator of `parseUsageData` (and the shape of the
zero-usage default of `combineModelData`). -/
structure UsageRec where
  totalCost : ℚ
  inputTokens : ℤ
  outputTokens : ℤ
  requests : ℤ
  dailyData : List DailyEntry
deriving DecidableEq, Repr

/-- The zero record `{totalCost: 0, inputTokens: 0, ...}`. -/
def emptyUsage : UsageRec :=
  { totalCost := 0, inputTokens := 0, outputTokens := 0, requests := 0, dailyData := [] }

/-- The `usage` object is a JS object keyed by canonical model: an
insertion-ordered association list with unique keys. -/
abbrev UsageMap : Type := List (String × UsageRec)

/-- `usageMap[name]` lookup. -/
def UsageMap.get? (um : UsageMap) (name : String) : Option UsageRec :=
  (List.find? (fun kv => kv.1 == name) um).map Prod.snd

/-- One row of `rawData.properties.rows` of the Cost Management response,
destructured as `[cost, date, currency, meterName, serviceName, quantity]`.
`cost` is modelled after the code's `parseFloat(cost) || 0` coercion. -/
structure UsageRow where
  cost : ℚ
  date : String
  currency : String
  meterName : Option String
  serviceName : String
  quantity : ℚ
deriving DecidableEq, Repr

/-- `estimateTokensFromCost(cost, modelName)`: floor of cost divided by a
static average price per token, defaulting to `0.00001`. -/
def estimateTokensFromCost (cost : ℚ) (modelName : String) : ℤ :=
  let avgPrice : ℚ :=
    if modelName = "gpt-4o" then 0.000006
    else if modelName = "gpt-4o-mini" then 0.000000375
    else if modelName = "gpt-3.5-turbo" then 0.000001
    else if modelName = "gpt-4-turbo" then 0.00002
    else if modelName = "gpt-4" then 0.000045
    else 0.00001
  ⌊cost / avgPrice⌋

/-- Mutation of one usage record by one row. -/
def applyUsageRow (u : UsageRec) (row : UsageRow) (modelName : String) : UsageRec :=
  let est := estimateTokensFromCost row.cost modelName
  { totalCost := u.totalCost + row.cost,
    inputTokens := u.inputTokens + ⌊(est : ℚ) * 0.7⌋,
    outputTokens := u.outputTokens + ⌊(est : ℚ) * 0.3⌋,
    requests := u.requests + ⌊(est : ℚ) / 1000⌋,
    dailyData := u.dailyData ++ [{ date := row.date, cost := row.cost, tokens := est }] }

/-- The body of the `forEach` of `parseUsageData`. -/
def stepUsage (um : UsageMap) (row : UsageRow) : UsageMap :=
  match extractModelFromMeterName row.meterName with
  | none => um
  | some modelName =>
    if row.serviceName = "Cognitive Services" then
      let um' : UsageMap :=
        if (List.find? (fun kv => kv.1 == modelName) um).isSome then um
        else um ++ [(modelName, emptyUsage)]
      um'.map (fun kv =>
        if kv.1 == modelName then (kv.1, applyUsageRow kv.2 row modelName) else kv)
    else um

/-- `parseUsageData(rawData)`. -/
def parseUsageData (rows : List UsageRow) : UsageMap :=
  rows.foldl stepUsage []

/-! ## Fallback data (source section 10) -/

/-- `getFallbackPricing()`: the built-in default price list; `region` is
`this.config.region` and `now` is `new Date().toISOString()`. -/
def getFallbackPricing (region now : String) : List PricingModel :=
  [ { name := "gpt-4o", inputPrice := some 0.0000025, outputPrice := some 0.00001,
      region := region, currency := "USD", status := "active", lastUpdated := now },
    { name := "gpt-4o-mini", inputPrice := some 0.000000150, outputPrice := some 0.000000600,
      region := region, currency := "USD", status := "active", lastUpdated := now },
    { name := "gpt-3.5-turbo", inputPrice := some 0.0000005, outputPrice := some 0.0000015,
      region := region, currency := "USD", status := "active", lastUpdated := now } ]

/-- `getFallbackUsage()`: the built-in default usage mapping. -/
def getFallbackUsage : UsageMap :=
  [ ("gpt-4o", { totalCost := 15.85, inputTokens := 2450000, outputTokens := 980000,
                 requests := 3420, dailyData := [] }),
    ("gpt-4o-mini", { totalCost := 3.26, inputTokens := 8950000, outputTokens := 3200000,
                      requests := 15680, dailyData := [] }),
    ("gpt-3.5-turbo", { totalCost := 15.60, inputTokens := 15600000, outputTokens := 5200000,
                        requests := 28450, dailyData := [] }) ]

/-! ## Exchange rates (source section 3) -/

/-- `this.exchangeRates`.  The constructor initialises only `USD_CZK` and
`lastUpdate`, so `USD_EUR` is `Option`al (`undefined` before the first
successful rate fetch). -/
structure Rates where
  usdCzk : ℚ
  usdEur : Option ℚ
  lastUpdate : ℕ
deriving DecidableEq, Repr

/-- The constructor's initial `{USD_CZK: 24.5, lastUpdate: Date.now()}`. -/
def initialRates (now : ℕ) : Rates :=
  { usdCzk := 24.5, usdEur := none, lastUpdate := now }

/-- JS `v || d` on a numeric field that may be absent: both a missing and
a zero value fall back to the default. -/
def orDefault (v : Option ℚ) (d : ℚ) : ℚ :=
  match v with
  | none => d
  | some c => if c = 0 then d else c

/-- Outcome of the exchange-rate fetch: either any failure (the request
throws, the response is non-2xx, or its body fails to parse — all reach
the same `catch`), or a parsed body carrying the optional `rates.CZK` and
`rates.EUR` fields. -/
inductive RatesOutcome where
  | err : RatesOutcome
  | ok : Option ℚ → Option ℚ → RatesOutcome
deriving DecidableEq, Repr

/-! ## Trend, synthetic hourly series, summary (sections 8 and 11) -/

/-- JS `x.toFixed(0)` on an exact rational: round to the nearest integer,
ties toward the larger integer (ECMA: "pick the larger n").  Number to
string formatting is modelled up to JS's negative zero. -/
def toFixed0 (q : ℚ) : ℤ :=
  ⌊q + 1/2⌋

/-- `` `${change >= 0 ? '+' : ''}${change.toFixed(0)}%` ``. -/
def fmtPercent (change : ℚ) : String :=
  (if 0 ≤ change then "+" else "") ++ toString (toFixed0 change) ++ "%"

/-- `calculateTrend(dailyData)`.  For two or more entries the code reads
`slice(-2)`; the `headD` defaults are unreachable there.  The division is
over `ℚ` (so a zero previous cost is modelled by `x / 0 = 0`). -/
def calculateTrend (dailyData : List DailyEntry) : String :=
  if dailyData.length < 2 then "+0%"
  else
    let recent := dailyData.drop (dailyData.length - 2)
    let c0 := (recent.headD { date := "", cost := 0, tokens := 0 }).cost
    let c1 := ((recent.drop 1).headD { date := "", cost := 0, tokens := 0 }).cost
    fmtPercent (((c1 - c0) / c0) * 100)

/-- One entry of the synthetic `lastHour` series. -/
structure HourEntry where
  time : String
  cost : ℚ
  tokens : ℚ
deriving DecidableEq, Repr

/-- Ambient inputs of the service that the code reads from the clock and
from `Math.random`: modelled as explicit oracles.  `randCost`/`randTok`
are the successive `Math.random()` draws of `generateHourlyTrend`,
indexed by (model position, bucket); `randPeak` is the single draw of
`calculatePeakHour`; `hourLabel i` is the clock-derived label of the
bucket `i` quarter-hours before the current hour. -/
structure Env where
  nowStr : String
  nowMs : ℕ
  randPeak : ℚ
  randCost : ℕ → ℕ → ℚ
  randTok : ℕ → ℕ → ℚ
  hourLabel : ℕ → String

/-- `generateHourlyTrend(usage)`: five buckets, loop index `i = 4..0`,
each bucket apportioning a random 15–25% fraction of the usage totals. -/
def generateHourlyTrend (env : Env) (midx : ℕ) (usage : UsageRec) : List HourEntry :=
  (List.range 5).map (fun k =>
    { time := env.hourLabel (4 - k),
      cost := usage.totalCost * (15/100 + env.randCost midx k * (1/10)),
      tokens := ((usage.inputTokens + usage.outputTokens : ℤ) : ℚ) *
        (15/100 + env.randTok midx k * (1/10)) })

/-- A merged dashboard row: the spread `{...pricingModel, usage, trend,
lastHour}` of `combineModelData`. -/
structure ModelSnap where
  name : String
  inputPrice : Option ℚ
  outputPrice : Option ℚ
  region : String
  currency : String
  status : String
  lastUpdated : String
  usage : UsageRec
  trend : String
  lastHour : List HourEntry

/-- `combineModelData(pricingModels, usageData)`: one row per price
record, zero-usage default when the model has no usage entry. -/
def combineModelData (env : Env) (pricingModels : List PricingModel)
    (usageData : UsageMap) : List ModelSnap :=
  pricingModels.enum.map (fun p =>
    let pm := p.2
    let usage := (usageData.get? pm.name).getD emptyUsage
    { name := pm.name, inputPrice := pm.inputPrice, outputPrice := pm.outputPrice,
      region := pm.region, currency := pm.currency, status := pm.status,
      lastUpdated := pm.lastUpdated,
      usage := usage,
      trend := calculateTrend usage.dailyData,
      lastHour := generateHourlyTrend env p.1 usage })

/-- The hard-coded hour list of `calculatePeakHour`. -/
def peakHours : List String :=
  ["14:00", "14:15", "14:30", "14:45", "15:00"]

/-- `calculatePeakHour(models)`: `hours[Math.floor(Math.random() *
hours.length)]` — a random pick from the fixed list, ignoring `models`.
For a draw outside `[0, 1)` the JS index would be out of range
(`undefined`); the `getD` default stands for that. -/
def calculatePeakHour (_models : List ModelSnap) (randPeak : ℚ) : String :=
  peakHours.getD (⌊randPeak * (peakHours.length : ℚ)⌋).toNat "undefined"

/-- The summary object of `calculateSummary`.  `topModel` is `Option`al
because on an empty model list the code reads `.name` of a default object
that has no such field (`undefined`). -/
structure Summary where
  totalCost : ℚ
  totalTokens : ℤ
  totalRequests : ℤ
  avgCostPerRequest : ℚ
  topModel : Option String
  peakHour : String

/-- The reducer of `topModel`: keep the accumulator unless the candidate
has strictly larger total cost. -/
def pickTop (top m : ModelSnap) : ModelSnap :=
  if top.usage.totalCost < m.usage.totalCost then m else top

/-- `calculateSummary(models)`.  The JS `reduce` with an initial value
visits every element, so for a nonempty list the `topModel` fold runs
over the whole list seeded with its head. -/
def calculateSummary (models : List ModelSnap) (randPeak : ℚ) : Summary :=
  let totalCost := models.foldl (fun s m => s + m.usage.totalCost) 0
  let totalTokens := models.foldl (fun s m => s + m.usage.inputTokens + m.usage.outputTokens) 0
  let totalRequests := models.foldl (fun s m => s + m.usage.requests) 0
  { totalCost := totalCost,
    totalTokens := totalTokens,
    totalRequests := totalRequests,
    avgCostPerRequest := if 0 < totalRequests then totalCost / (totalRequests : ℚ) else 0,
    topModel :=
      match models with
      | [] => none
      | m0 :: _ => some ((models.foldl pickTop m0).name),
    peakHour := calculatePeakHour models randPeak }

/-! ## Service state and the fetchers (sections 1–5) -/

/-- The dashboard payload built by `getDashboardData` (also the value
stored in `this.lastUpdate`).  The catch branch returns `summary: {}`,
modelled by `none`, and carries an `error` message. -/
structure DashboardResult where
  models : List ModelSnap
  summary : Option Summary
  exchangeRates : Rates
  region : String
  lastUpdate : String
  status : String
  error : Option String

/-- The mutable per-instance state of `AzureAIRealtimeService`:
`this.cache` under its three string keys (each entry is a value with a
`timestamp`), `this.exchangeRates`, `this.lastUpdate`, and the fixed
`this.config.region`. -/
structure ServiceState where
  region : String
  cachePricing : Option (List PricingModel × ℕ)
  cacheUsage : Option (UsageMap × ℕ)
  cacheToken : Option (String × ℕ)
  exchangeRates : Rates
  lastUpdate : Option DashboardResult

/-- The state of a freshly constructed service. -/
def initialState (region : String) (now : ℕ) : ServiceState :=
  { region := region, cachePricing := none, cacheUsage := none, cacheToken := none,
    exchangeRates := initialRates now, lastUpdate := none }

/-- Outcome of the pricing catalog request: a parsed `Items` list, or any
failure (network error, non-2xx status, JSON parse error — one `catch`). -/
inductive PricingOutcome where
  | err : PricingOutcome
  | ok : List RawPriceItem → PricingOutcome

/-- `fetchRealTimePricing()`: on success parse and cache; on any failure
return `getFallbackPricing()` — the built-in list, not the cache. -/
def fetchRealTimePricing (s : ServiceState) (o : PricingOutcome) (env : Env) :
    List PricingModel × ServiceState :=
  match o with
  | .ok items =>
    let parsed := parsePricingData env.nowStr items
    (parsed, { s with cachePricing := some (parsed, env.nowMs) })
  | .err => (getFallbackPricing s.region env.nowStr, s)

/-- Result of `getAzureAccessToken`: the token or the propagated error,
the updated state, and whether a client-credential exchange was
performed (false exactly when the cached token was returned). -/
structure TokenResult where
  result : Except String String
  state : ServiceState
  exchanged : Bool

/-- The client-credential exchange inside `getAzureAccessToken`: cache
the fresh token on success, rethrow the failure on rejection (a stale
cache entry is merely left behind, never returned). -/
def tokenAttempt (s : ServiceState) (now : ℕ) (ex : Except String String) : TokenResult :=
  match ex with
  | .ok t => { result := .ok t, state := { s with cacheToken := some (t, now) },
               exchanged := true }
  | .error e => { result := .error e, state := s, exchanged := true }

/-- `getAzureAccessToken()`: return the cached token while the cache
entry is younger than 50 minutes (the code's comment: "expires in 1 hour,
check after 50 minutes"); otherwise perform the exchange via
`tokenAttempt`.  `ex` is the outcome of the exchange request. -/
def getAzureAccessToken (s : ServiceState) (now : ℕ) (ex : Except String String) :
    TokenResult :=
  match s.cacheToken with
  | some (tok, ts) =>
    if now - ts < 50 * 60 * 1000 then { result := .ok tok, state := s, exchanged := false }
    else tokenAttempt s now ex
  | none => tokenAttempt s now ex

/-- `fetchUsageData()`: needs a token (a token failure propagates into
this method's `catch`), then runs the cost query; on success parse and
cache, on any failure return `getFallbackUsage()`. -/
def fetchUsageData (s : ServiceState) (env : Env) (tokenEx : Except String String)
    (query : Except String (List UsageRow)) : UsageMap × ServiceState :=
  let tr := getAzureAccessToken s env.nowMs tokenEx
  match tr.result with
  | .error _ => (getFallbackUsage, tr.state)
  | .ok _ =>
    match query with
    | .error _ => (getFallbackUsage, tr.state)
    | .ok rows =>
      let parsed := parseUsageData rows
      (parsed, { tr.state with cacheUsage := some (parsed, env.nowMs) })

/-- `fetchExchangeRates()`: on success replace `this.exchangeRates`
(`rates.CZK || 24.5`, `rates.EUR || 0.85`); on any failure return the
cached value, leaving it unchanged. -/
def fetchExchangeRates (s : ServiceState) (o : RatesOutcome) (now : ℕ) :
    Rates × ServiceState :=
  match o with
  | .err => (s.exchangeRates, s)
  | .ok czk eur =>
    let r : Rates := { usdCzk := orDefault czk 24.5, usdEur := some (orDefault eur 0.85),
                       lastUpdate := now }
    (r, { s with exchangeRates := r })

/-- `getDashboardData()`.  The three fetchers run under
`Promise.allSettled`; since each catches its own failures, every branch
fulfills and the `rejected` arms of the source are dead.  The fetchers
mutate disjoint parts of the state, so their concurrent execution on the
single-threaded event loop is modelled sequentially.  `aggErr` models a
JS exception thrown inside the `try` block during the merge/summary
phase (an "unexpected error" — e.g. a bug), which the `catch` turns into
the error payload without touching `this.lastUpdate`. -/
def getDashboardData (s : ServiceState) (po : PricingOutcome)
    (tokenEx : Except String String) (query : Except String (List UsageRow))
    (ro : RatesOutcome) (aggErr : Option String) (env : Env) :
    DashboardResult × ServiceState :=
  let pr := fetchRealTimePricing s po env
  let us := fetchUsageData pr.2 env tokenEx query
  let ra := fetchExchangeRates us.2 ro env.nowMs
  match aggErr with
  | some e =>
    ({ models := [], summary := none, exchangeRates := ra.2.exchangeRates,
       region := ra.2.region, lastUpdate := env.nowStr, status := "error",
       error := some e }, ra.2)
  | none =>
    let models := combineModelData env pr.1 us.1
    let summary := calculateSummary models env.randPeak
    let dd : DashboardResult :=
      { models := models, summary := some summary, exchangeRates := ra.1,
        region := ra.2.region, lastUpdate := env.nowStr, status := "success",
        error := none }
    (dd, { ra.2 with lastUpdate := some dd })

/-! ## Scheduler (source section 12)

`startAutoRefresh` registers `cron.schedule(pattern, async () => {
await this.getDashboardData(); })`.  The callback consults no guard
state, and `node-cron` does not await the promise of a previous firing,
so every tick starts an aggregation unconditionally.  The model below
tracks the number of in-flight aggregations under the two events that
matter: a timer tick, and the completion of one running aggregation.
An event sequence is valid when a completion only occurs while some
aggregation is in flight. -/

/-- Scheduler events: a cron tick, or one aggregation finishing. -/
inductive SchedEvent where
  | tick : SchedEvent
  | complete : SchedEvent
deriving DecidableEq, Repr

/-- One event's effect on the number of in-flight aggregations: a tick
starts `getDashboardData` unconditionally (the registered callback has no
overlap check), a completion retires one run. -/
def schedStep (inFlight : ℕ) : SchedEvent → ℕ
  | .tick => inFlight + 1
  | .complete => inFlight - 1

/-- In-flight count after a sequence of scheduler events. -/
def schedRun (inFlight : ℕ) (evs : List SchedEvent) : ℕ :=
  evs.foldl schedStep inFlight

/-- An event sequence is valid when every completion happens while at
least one aggregation is running. -/
def validEvents (inFlight : ℕ) : List SchedEvent → Bool
  | [] => true
  | .tick :: r => validEvents (inFlight + 1) r
  | .complete :: r => decide (0 < inFlight) && validEvents (inFlight - 1) r

/-- Count of one event kind in a sequence. -/
def countEvent (e : SchedEvent) (evs : List SchedEvent) : ℕ :=
  evs.countP (fun x => x == e)

/-! ## Specification-side definitions

The following definitions follow the words of the specification (not the
source); they exist to be compared with the source-derived definitions
above. -/

/-- The spec's trend: "percentage change between the two most recent
entries of dailySeries; defined as `+0%` when fewer than two entries
exist". -/
def specTrend (dailySeries : List DailyEntry) : String :=
  match dailySeries.reverse with
  | newest :: previous :: _ =>
    fmtPercent (((newest.cost - previous.cost) / previous.cost) * 100)
  | _ => "+0%"

/-- The spec's peak hour: "derived from the largest-cost bucket across
the models' short-interval series" — the time label of the first bucket
attaining the maximal cost over all models' `lastHour` series. -/
def specPeakHour (models : List ModelSnap) : String :=
  let buckets := (models.map (fun m => m.lastHour)).flatten
  match buckets.foldl (fun best b =>
      match best with
      | none => some b
      | some x => if x.cost < b.cost then some b else some x) none with
  | some b => b.time
  | none => ""

/-- The claim's token-cache validity: "the current time earlier than the
token's expiry minus a safety margin of about 10% of the token lifetime".
With the code's assumed one-hour lifetime from issue this reads
`now < issuedAt + 60 min - 6 min`. -/
def specTokenStillValid (now issuedAt : ℕ) : Bool :=
  decide (now < issuedAt + 3600000 - 360000)

/-! ## Concrete inputs used by counterexamples, scenarios and witnesses -/

/-- A deterministic environment for concrete runs. -/
def envW : Env :=
  { nowStr := "t0", nowMs := 0, randPeak := 0,
    randCost := fun _ _ => 0, randTok := fun _ _ => 0, hourLabel := fun _ => "h" }

/-- A two-item catalog response pricing gpt-4o in both directions. -/
def c1raw : List RawPriceItem :=
  [ { meterName := "gpt-4o input", productName := "", retailPrice := 1,
      armRegionName := "westeurope", currencyCode := "USD" },
    { meterName := "gpt-4o output", productName := "", retailPrice := 2,
      armRegionName := "westeurope", currencyCode := "USD" } ]

/-- The service state after one successful pricing fetch of `c1raw`. -/
def c1s1 : ServiceState :=
  (fetchRealTimePricing (initialState "westeurope" 0) (.ok c1raw) envW).2

/-- A model snapshot whose only synthetic bucket lies at 08:00 with
nonzero cost: the spec's peak hour for it is 08:00. -/
def c7model : ModelSnap :=
  { name := "m", inputPrice := none, outputPrice := none, region := "",
    currency := "", status := "", lastUpdated := "", usage := emptyUsage,
    trend := "", lastHour := [{ time := "08:00", cost := 5, tokens := 0 }] }

/-- The pricing response of the spec's gpt-4o scenario. -/
def c9raw : List RawPriceItem :=
  [ { meterName := "gpt-4o input", productName := "", retailPrice := 0.0000025,
      armRegionName := "westeurope", currencyCode := "USD" },
    { meterName := "gpt-4o output", productName := "", retailPrice := 0.00001,
      armRegionName := "westeurope", currencyCode := "USD" } ]

/-- The usage response of the spec's gpt-4o scenario: one zero-cost row. -/
def c9rows : List UsageRow :=
  [ { cost := 0, date := "2025-01-01", currency := "USD",
      meterName := some "gpt-4o Input Tokens", serviceName := "Cognitive Services",
      quantity := 0 } ]

/-- The merged rows of the gpt-4o scenario. -/
def c9models : List ModelSnap :=
  combineModelData envW (parsePricingData "t0" c9raw) (parseUsageData c9rows)

/-- A state whose token cache entry was written at time 0. -/
def c10state : ServiceState :=
  { initialState "westeurope" 0 with cacheToken := some ("cached-token", 0) }

/-- 52 minutes in milliseconds: a probe instant between the code's
50-minute refresh threshold and the claim's 54-minute one. -/
def c10now : ℕ := 52 * 60 * 1000

/-- Invariant of the keyed `models` map of `parsePricingData` after the
items in `seen` have been processed: keys are distinct, each record's
name is its key, a key is present exactly when some processed item
extracted to it, and a price field is set exactly when some processed
item carried that key and direction. -/
def PricingAccInv (acc : List (String × PricingModel)) (seen : List RawPriceItem) : Prop :=
  (acc.map Prod.fst).Nodup
  ∧ (∀ kv ∈ acc, kv.2.name = kv.1)
  ∧ (∀ k : String, (∃ kv ∈ acc, kv.1 = k)
      ↔ ∃ it ∈ seen, ∃ d, extractModelFromMeter it.meterName it.productName = some (k, d))
  ∧ (∀ kv ∈ acc,
      (kv.2.inputPrice.isSome = true
        ↔ ∃ it ∈ seen,
            extractModelFromMeter it.meterName it.productName = some (kv.1, Direction.input))
      ∧ (kv.2.outputPrice.isSome = true
        ↔ ∃ it ∈ seen,
            extractModelFromMeter it.meterName it.productName = some (kv.1, Direction.output)))

/-! ## Helper lemmas -/

/-- The pricing fetch never touches `this.lastUpdate`. -/
theorem fetchRealTimePricing_lastUpdate (s : ServiceState) (o : PricingOutcome) (env : Env) :
    (fetchRealTimePricing s o env).2.lastUpdate = s.lastUpdate := by
  cases o <;> rfl

/-- The token provider never touches `this.lastUpdate`. -/
theorem getAzureAccessToken_lastUpdate (s : ServiceState) (now : ℕ)
    (ex : Except String String) :
    (getAzureAccessToken s now ex).state.lastUpdate = s.lastUpdate := by
  rcases hct : s.cacheToken with _ | ⟨tok, ts⟩ <;> cases ex <;>
    simp only [getAzureAccessToken, tokenAttempt, hct] <;>
    first
      | rfl
      | (split <;> rfl)

/-- The usage fetch never touches `this.lastUpdate`. -/
theorem fetchUsageData_lastUpdate (s : ServiceState) (env : Env)
    (tokenEx : Except String String) (query : Except String (List UsageRow)) :
    (fetchUsageData s env tokenEx query).2.lastUpdate = s.lastUpdate := by
  unfold fetchUsageData
  have h := getAzureAccessToken_lastUpdate s env.nowMs tokenEx
  rcases hr : (getAzureAccessToken s env.nowMs tokenEx).result with e | t <;>
    cases query <;> simp [hr] <;> exact h

/-- The rate fetch never touches `this.lastUpdate`. -/
theorem fetchExchangeRates_lastUpdate (s : ServiceState) (o : RatesOutcome) (now : ℕ) :
    (fetchExchangeRates s o now).2.lastUpdate = s.lastUpdate := by
  cases o <;> rfl

/-- When the cost query fails, the usage fetch degrades to the built-in
fallback, whatever the token outcome. -/
theorem fetchUsageData_queryErr (s : ServiceState) (env : Env)
    (tokenEx : Except String String) (e : String) :
    (fetchUsageData s env tokenEx (.error e)).1 = getFallbackUsage := by
  unfold fetchUsageData
  rcases hr : (getAzureAccessToken s env.nowMs tokenEx).result with e' | t <;> simp [hr]

/-! ## C1 — pricing fetch fallback -/

/-- C1, counterexample.  The claim says a failing pricing fetch returns
the last known-good parsed list once one exists.  After a successful
fetch of `c1raw` the cache holds its one-model parse, yet a subsequent
failing fetch returns the three-model built-in default list instead. -/
theorem c1_counterexample :
    c1s1.cachePricing = some (parsePricingData "t0" c1raw, 0)
    ∧ (fetchRealTimePricing c1s1 .err envW).1 = getFallbackPricing "westeurope" "t0"
    ∧ (fetchRealTimePricing c1s1 .err envW).1 ≠ parsePricingData "t0" c1raw := by
  refine ⟨rfl, rfl, fun h => ?_⟩
  have hlen := congrArg List.length h
  have e1 : ((fetchRealTimePricing c1s1 .err envW).1).length = 3 := by decide
  have e2 : (parsePricingData "t0" c1raw).length = 1 := by decide
  rw [e1, e2] at hlen
  exact absurd hlen (by decide)

/-- C1, amended.  `fetchRealTimePricing` never throws, and on any failed
fetch (network error, non-2xx response, or parse failure) it returns the
built-in default list `getFallbackPricing()` and leaves the state — in
particular the cached last-good list — unchanged; the cache is written on
success but never consulted on failure. -/
theorem c1_pricing_error_returns_builtin (s : ServiceState) (env : Env) :
    fetchRealTimePricing s .err env = (getFallbackPricing s.region env.nowStr, s) := rfl

/-! ## C2 — snapshot build error isolation -/

/-- C2.  `getDashboardData` is total (the embedding returns a payload for
every outcome, mirroring the catch-all `try/catch`); whenever an
unexpected error is raised inside the aggregation phase, the returned
payload is the error object and the previously published snapshot
`this.lastUpdate` — the one served to subscribers — is left untouched,
so a partially-built snapshot is never published.  Without such an error
the build completes and publishes. -/
theorem c2_snapshot_error_isolation (s : ServiceState) (po : PricingOutcome)
    (tokenEx : Except String String) (query : Except String (List UsageRow))
    (ro : RatesOutcome) (e : String) (env : Env) :
    (getDashboardData s po tokenEx query ro (some e) env).1.status = "error"
    ∧ (getDashboardData s po tokenEx query ro (some e) env).1.error = some e
    ∧ (getDashboardData s po tokenEx query ro (some e) env).2.lastUpdate = s.lastUpdate
    ∧ (getDashboardData s po tokenEx query ro none env).1.status = "success"
    ∧ (getDashboardData s po tokenEx query ro none env).2.lastUpdate
        = some (getDashboardData s po tokenEx query ro none env).1 := by
  refine ⟨rfl, rfl, ?_, rfl, rfl⟩
  show (fetchExchangeRates (fetchUsageData (fetchRealTimePricing s po env).2
      env tokenEx query).2 ro env.nowMs).2.lastUpdate = s.lastUpdate
  rw [fetchExchangeRates_lastUpdate, fetchUsageData_lastUpdate,
    fetchRealTimePricing_lastUpdate]

/-! ## C3 — scheduler tick overlap -/

/-- C3, counterexample.  The claim says two consecutive ticks never
produce overlapping in-flight aggregations.  The event sequence
"tick, tick" (the second tick fires before the first aggregation
completes) is valid, and after it two aggregations are in flight
simultaneously: the registered cron callback starts `getDashboardData`
unconditionally, with no skip or queue guard. -/
theorem c3_counterexample :
    validEvents 0 [.tick, .tick] = true ∧ schedRun 0 [.tick, .tick] = 2 := by
  exact ⟨rfl, rfl⟩

/-- C3, amended.  Every tick starts an aggregation unconditionally: after
any valid event sequence the number of in-flight aggregations is the
number of ticks minus the number of completions, so aggregations overlap
exactly when a tick fires while a previous one is still running; nothing
skips or queues the overlapping tick. -/
theorem c3_ticks_minus_completions (evs : List SchedEvent) (n : ℕ)
    (h : validEvents n evs = true) :
    schedRun n evs + countEvent .complete evs = n + countEvent .tick evs := by
  have etc : (SchedEvent.tick == SchedEvent.complete) = false := rfl
  have ett : (SchedEvent.tick == SchedEvent.tick) = true := rfl
  have ecc : (SchedEvent.complete == SchedEvent.complete) = true := rfl
  have ect : (SchedEvent.complete == SchedEvent.tick) = false := rfl
  induction evs generalizing n with
  | nil => simp [schedRun, countEvent]
  | cons ev r ih =>
    cases ev with
    | tick =>
      have h' : validEvents (n + 1) r = true := h
      have ihr := ih (n + 1) h'
      have c1 : countEvent .complete (SchedEvent.tick :: r) = countEvent .complete r := by
        simp [countEvent, List.countP_cons, etc]
      have c2 : countEvent .tick (SchedEvent.tick :: r) = countEvent .tick r + 1 := by
        simp [countEvent, List.countP_cons, ett]
      have hrun : schedRun n (SchedEvent.tick :: r) = schedRun (n + 1) r := rfl
      rw [hrun, c1, c2]
      omega
    | complete =>
      have h' : (decide (0 < n) && validEvents (n - 1) r) = true := h
      rw [Bool.and_eq_true, decide_eq_true_eq] at h'
      have ihr := ih (n - 1) h'.2
      have c1 : countEvent .complete (SchedEvent.complete :: r)
          = countEvent .complete r + 1 := by
        simp [countEvent, List.countP_cons, ecc]
      have c2 : countEvent .tick (SchedEvent.complete :: r) = countEvent .tick r := by
        simp [countEvent, List.countP_cons, ect]
      have hrun : schedRun n (SchedEvent.complete :: r) = schedRun (n - 1) r := rfl
      rw [hrun, c1, c2]
      omega

/-- C3, witness for the amended theorem at the sequence
tick, complete, tick. -/
theorem c3_witness :
    validEvents 0 [.tick, .complete, .tick] = true
    ∧ schedRun 0 [.tick, .complete, .tick]
        + countEvent .complete [.tick, .complete, .tick]
      = 0 + countEvent .tick [.tick, .complete, .tick] :=
  ⟨by decide, c3_ticks_minus_completions [.tick, .complete, .tick] 0 (by decide)⟩

/-! ## C10 — token cache validity window -/

/-- C10, counterexample.  The claim's validity window (expiry minus a
margin of about 10% of the one-hour lifetime, i.e. until minute 54) still
holds 52 minutes after issue, yet the code — whose window is 50 minutes
from the cache write — discards the cached token and performs a fresh
client-credential exchange there. -/
theorem c10_counterexample :
    specTokenStillValid c10now 0 = true
    ∧ (getAzureAccessToken c10state c10now (.ok "fresh")).exchanged = true
    ∧ (getAzureAccessToken c10state c10now (.ok "fresh")).result = .ok "fresh" := by
  refine ⟨by decide, ?_, ?_⟩ <;> rfl

/-- C10, amended.  The cached token is returned without a new exchange
exactly while `now - cachedAt < 50 minutes` (a 10-minute safety margin
against the code's assumed fixed one-hour lifetime, measured from the
cache-write time); otherwise a client-credential exchange is performed:
on success the fresh token is cached and returned, on rejection the
failure is propagated with no silent fallback. -/
theorem c10_token_cache (s : ServiceState) (now ts : ℕ) (tok : String)
    (ex : Except String String) :
    (s.cacheToken = some (tok, ts) → now - ts < 50 * 60 * 1000 →
      getAzureAccessToken s now ex
        = { result := .ok tok, state := s, exchanged := false })
    ∧ (s.cacheToken = some (tok, ts) → ¬ now - ts < 50 * 60 * 1000 →
      getAzureAccessToken s now ex = tokenAttempt s now ex)
    ∧ (s.cacheToken = none → getAzureAccessToken s now ex = tokenAttempt s now ex)
    ∧ (∀ t, tokenAttempt s now (.ok t)
        = { result := .ok t, state := { s with cacheToken := some (t, now) },
            exchanged := true })
    ∧ (∀ e, tokenAttempt s now (.error e)
        = { result := .error e, state := s, exchanged := true }) := by
  refine ⟨?_, ?_, ?_, fun t => rfl, fun e => rfl⟩
  · intro hc hv
    simp [getAzureAccessToken, hc, hv]
  · intro hc hv
    simp [getAzureAccessToken, hc, hv]
  · intro hc
    simp [getAzureAccessToken, hc]

/-- C10, witness for the amended theorem: 49 minutes after the cache
write the cached token is returned without an exchange. -/
theorem c10_witness :
    c10state.cacheToken = some ("cached-token", 0)
    ∧ (49 * 60 * 1000 : ℕ) - 0 < 50 * 60 * 1000
    ∧ getAzureAccessToken c10state (49 * 60 * 1000) (.ok "fresh")
        = { result := .ok "cached-token", state := c10state, exchanged := false } :=
  ⟨rfl, by decide,
    (c10_token_cache c10state (49 * 60 * 1000) 0 "cached-token" (.ok "fresh")).1
      rfl (by decide)⟩

/-! ## C4 — ordered model-identification rules -/

/-- C4.  Identification maps an entry to at most one canonical model by
first match over the ordered rule table; whenever a `gpt-4o-mini` rule
matches the entry's search text, the entry is classified as
`gpt-4o-mini` — never as the more general `gpt-4o` — because the mini
rules precede the general ones; and an entry matching no rule of the
table is dropped (`null`). -/
theorem c4_model_identification (meterName productName : String) :
    ((matchGap2 "gpt-4o-mini".data "input".data (toSearchText meterName productName)
      || matchGap2 "gpt-4o-mini".data "output".data (toSearchText meterName productName))
        = true →
      ∃ d, extractModelFromMeter meterName productName = some ("gpt-4o-mini", d))
    ∧ (extractModelFromMeter meterName productName = none ↔
      ∀ r ∈ pricingPatterns, r.1 (toSearchText meterName productName) = false) := by
  constructor
  · intro h
    rw [Bool.or_eq_true] at h
    cases h1 : matchGap2 "gpt-4o-mini".data "input".data (toSearchText meterName productName)
    · cases h2 : matchGap2 "gpt-4o-mini".data "output".data
          (toSearchText meterName productName)
      · rw [h1, h2] at h
        exact absurd h (by simp)
      · exact ⟨.output, by simp [extractModelFromMeter, pricingPatterns, List.find?, h1, h2]⟩
    · exact ⟨.input, by simp [extractModelFromMeter, pricingPatterns, List.find?, h1]⟩
  · simp only [extractModelFromMeter, Option.map_eq_none', List.find?_eq_none,
      Bool.not_eq_true]

/-- C4, witness: a mini input meter matches the first rule and is
classified as `gpt-4o-mini`. -/
theorem c4_witness :
    (matchGap2 "gpt-4o-mini".data "input".data
        (toSearchText "gpt-4o-mini Input Tokens" "Azure OpenAI")
      || matchGap2 "gpt-4o-mini".data "output".data
        (toSearchText "gpt-4o-mini Input Tokens" "Azure OpenAI")) = true
    ∧ ∃ d, extractModelFromMeter "gpt-4o-mini Input Tokens" "Azure OpenAI"
        = some ("gpt-4o-mini", d) :=
  ⟨by decide, (c4_model_identification "gpt-4o-mini Input Tokens" "Azure OpenAI").1
    (by decide)⟩

/-! ## C5 — pricing parse invariants -/

/-- Existence over a list extended by one element on the right. -/
theorem exists_mem_snoc {α : Type _} (P : α → Prop) (l : List α) (x : α) :
    (∃ y ∈ l ++ [x], P y) ↔ (∃ y ∈ l, P y) ∨ P x := by
  constructor
  · rintro ⟨y, hy, hP⟩
    rcases List.mem_append.mp hy with h | h
    · exact Or.inl ⟨y, h, hP⟩
    · have hyx := List.mem_singleton.mp h
      subst hyx
      exact Or.inr hP
  · rintro (⟨y, hy, hP⟩ | hP)
    · exact ⟨y, List.mem_append_left _ hy, hP⟩
    · exact ⟨x, List.mem_append_right _ (List.mem_singleton_self x), hP⟩

/-- Existence over a snoc degenerates when the new element fails the
predicate. -/
theorem snoc_iff_of_not {α : Type _} (P : α → Prop) (l : List α) (x : α) (h : ¬ P x) :
    (∃ y ∈ l ++ [x], P y) ↔ ∃ y ∈ l, P y := by
  rw [exists_mem_snoc]
  constructor
  · rintro (hy | hy)
    · exact hy
    · exact absurd hy h
  · exact Or.inl

/-- The in-place price update does not change the key sequence. -/
theorem updateKey_keys (acc : List (String × PricingModel)) (key : String)
    (d : Direction) (p : ℚ) :
    (updateKey acc key d p).map Prod.fst = acc.map Prod.fst := by
  unfold updateKey
  rw [List.map_map]
  refine List.map_congr_left (fun kv _ => ?_)
  simp only [Function.comp_apply]
  by_cases h : (kv.1 == key) = true
  · rw [if_pos h]
  · rw [if_neg h]

/-- Membership in the updated map, element-wise. -/
theorem mem_updateKey {acc : List (String × PricingModel)} {key : String}
    {d : Direction} {p : ℚ} {kv' : String × PricingModel} :
    kv' ∈ updateKey acc key d p ↔
      ∃ kv ∈ acc, kv' = if kv.1 == key then (kv.1, setPrice kv.2 d p) else kv := by
  unfold updateKey
  rw [List.mem_map]
  constructor
  · rintro ⟨kv, h, hkv⟩
    exact ⟨kv, h, hkv.symm⟩
  · rintro ⟨kv, h, hkv⟩
    exact ⟨kv, h, hkv.symm⟩

/-- Key membership as membership of the key sequence. -/
theorem exists_key_iff_mem_map (l : List (String × PricingModel)) (k : String) :
    (∃ kv ∈ l, kv.1 = k) ↔ k ∈ l.map Prod.fst := by
  rw [List.mem_map]

set_option maxHeartbeats 2000000 in
/-- One `forEach` step preserves the parsing invariant. -/
theorem stepPricing_inv (now : String) (acc : List (String × PricingModel))
    (seen : List RawPriceItem) (it : RawPriceItem) (h : PricingAccInv acc seen) :
    PricingAccInv (stepPricing now acc it) (seen ++ [it]) := by
  obtain ⟨hnd, hname, hkeys, hfields⟩ := h
  rcases hext : extractModelFromMeter it.meterName it.productName with _ | ⟨key, d⟩
  · -- unmatched item: the map is unchanged and the item contributes nothing
    simp only [stepPricing, hext]
    refine ⟨hnd, hname, ?_, ?_⟩
    · intro k
      rw [hkeys k]
      have hno : ¬ ∃ d', extractModelFromMeter it.meterName it.productName = some (k, d') := by
        simp [hext]
      exact (snoc_iff_of_not
        (fun it' => ∃ d', extractModelFromMeter it'.meterName it'.productName = some (k, d'))
        seen it hno).symm
    · intro kv hkv
      obtain ⟨hin, hout⟩ := hfields kv hkv
      have hnoi : ¬ extractModelFromMeter it.meterName it.productName
          = some (kv.1, Direction.input) := by simp [hext]
      have hnoo : ¬ extractModelFromMeter it.meterName it.productName
          = some (kv.1, Direction.output) := by simp [hext]
      constructor
      · rw [hin]
        exact (snoc_iff_of_not
          (fun it' => extractModelFromMeter it'.meterName it'.productName
            = some (kv.1, Direction.input)) seen it hnoi).symm
      · rw [hout]
        exact (snoc_iff_of_not
          (fun it' => extractModelFromMeter it'.meterName it'.productName
            = some (kv.1, Direction.output)) seen it hnoo).symm
  · -- matched item: ensure the key exists, then set the direction's price
    simp only [stepPricing, hext]
    have hkeys1 : ∀ k, (∃ kv ∈ ensureKey acc key (freshModel key it now), kv.1 = k)
        ↔ (∃ kv ∈ acc, kv.1 = k) ∨ k = key := by
      intro k
      unfold ensureKey
      split
      · rename_i hpres
        rw [List.find?_isSome] at hpres
        obtain ⟨kv0, hkv0, hbeq⟩ := hpres
        have hk0 : kv0.1 = key := by simpa using hbeq
        constructor
        · exact Or.inl
        · rintro (hmem | rfl)
          · exact hmem
          · exact ⟨kv0, hkv0, hk0⟩
      · rw [exists_mem_snoc]
        simp [eq_comm]
    have hnotmem : ¬ (acc.find? (fun kv => kv.1 == key)).isSome = true →
        ¬ ∃ kv ∈ acc, kv.1 = key := by
      rintro hpres ⟨kv0, hkv0, hk0⟩
      exact hpres (List.find?_isSome.mpr ⟨kv0, hkv0, by simp [hk0]⟩)
    have hnodup1 : ((ensureKey acc key (freshModel key it now)).map Prod.fst).Nodup := by
      unfold ensureKey
      split
      · exact hnd
      · rename_i hpres
        rw [List.map_append]
        refine List.nodup_append.mpr ⟨hnd, List.nodup_singleton _, ?_⟩
        intro a ha hb
        simp only [List.map_cons, List.map_nil, List.mem_singleton] at hb
        rw [hb] at ha
        exact hnotmem hpres ((exists_key_iff_mem_map acc key).mpr ha)
    have hname1 : ∀ kv ∈ ensureKey acc key (freshModel key it now), kv.2.name = kv.1 := by
      intro kv hkv
      unfold ensureKey at hkv
      split at hkv
      · exact hname kv hkv
      · rcases List.mem_append.mp hkv with hmem | hmem
        · exact hname kv hmem
        · have := List.mem_singleton.mp hmem
          subst this
          rfl
    have hfields1 : ∀ kv ∈ ensureKey acc key (freshModel key it now),
        (kv.2.inputPrice.isSome = true
          ↔ ∃ it' ∈ seen,
              extractModelFromMeter it'.meterName it'.productName
                = some (kv.1, Direction.input))
        ∧ (kv.2.outputPrice.isSome = true
          ↔ ∃ it' ∈ seen,
              extractModelFromMeter it'.meterName it'.productName
                = some (kv.1, Direction.output)) := by
      intro kv hkv
      unfold ensureKey at hkv
      split at hkv
      · exact hfields kv hkv
      · rename_i hpres
        rcases List.mem_append.mp hkv with hmem | hmem
        · exact hfields kv hmem
        · have := List.mem_singleton.mp hmem
          subst this
          have hnoseen : ∀ d', ¬ ∃ it' ∈ seen,
              extractModelFromMeter it'.meterName it'.productName = some (key, d') := by
            intro d' ⟨it', hit', hd'⟩
            exact hnotmem hpres ((hkeys key).mpr ⟨it', hit', d', hd'⟩)
          constructor
          · constructor
            · intro hfalse
              exact absurd hfalse (by simp [freshModel])
            · intro hex
              exact absurd hex (hnoseen Direction.input)
          · constructor
            · intro hfalse
              exact absurd hfalse (by simp [freshModel])
            · intro hex
              exact absurd hex (hnoseen Direction.output)
    refine ⟨?_, ?_, ?_, ?_⟩
    · rw [updateKey_keys]
      exact hnodup1
    · intro kv hkv
      rcases mem_updateKey.mp hkv with ⟨kv0, hkv0, rfl⟩
      by_cases hk : (kv0.1 == key) = true
      · rw [if_pos hk]
        have hn0 := hname1 kv0 hkv0
        cases d <;> exact hn0
      · rw [if_neg hk]
        exact hname1 kv0 hkv0
    · intro k
      have hkeq : (∃ kv ∈ updateKey (ensureKey acc key (freshModel key it now)) key d
          it.retailPrice, kv.1 = k)
          ↔ ∃ kv ∈ ensureKey acc key (freshModel key it now), kv.1 = k := by
        rw [exists_key_iff_mem_map, exists_key_iff_mem_map, updateKey_keys]
      rw [hkeq, hkeys1 k, hkeys k, exists_mem_snoc]
      have hiff : (∃ d', extractModelFromMeter it.meterName it.productName = some (k, d'))
          ↔ k = key := by
        constructor
        · rintro ⟨d', hd'⟩
          rw [hext] at hd'
          have hpair := Option.some.inj hd'
          exact (congrArg Prod.fst hpair).symm
        · rintro rfl
          exact ⟨d, hext⟩
      rw [hiff]
    · intro kv hkv
      rcases mem_updateKey.mp hkv with ⟨kv0, hkv0, rfl⟩
      obtain ⟨hin0, hout0⟩ := hfields1 kv0 hkv0
      by_cases hk : (kv0.1 == key) = true
      · have hk' : kv0.1 = key := by simpa using hk
        rw [if_pos hk]
        cases d
        · -- the input price is set; the output field is untouched
          refine ⟨⟨fun _ => ?_, fun _ => rfl⟩, ?_⟩
          · exact (exists_mem_snoc _ _ _).mpr (Or.inr (by rw [hext, hk']))
          · have hnoo : ¬ extractModelFromMeter it.meterName it.productName
                = some (kv0.1, Direction.output) := by simp [hext]
            show kv0.2.outputPrice.isSome = true ↔ _
            rw [hout0]
            exact (snoc_iff_of_not
              (fun it' => extractModelFromMeter it'.meterName it'.productName
                = some (kv0.1, Direction.output)) seen it hnoo).symm
        · -- the output price is set; the input field is untouched
          refine ⟨?_, ⟨fun _ => ?_, fun _ => rfl⟩⟩
          · have hnoi : ¬ extractModelFromMeter it.meterName it.productName
                = some (kv0.1, Direction.input) := by simp [hext]
            show kv0.2.inputPrice.isSome = true ↔ _
            rw [hin0]
            exact (snoc_iff_of_not
              (fun it' => extractModelFromMeter it'.meterName it'.productName
                = some (kv0.1, Direction.input)) seen it hnoi).symm
          · exact (exists_mem_snoc _ _ _).mpr (Or.inr (by rw [hext, hk']))
      · rw [if_neg hk]
        have hk' : ¬ kv0.1 = key := by simpa using hk
        have hnoi : ¬ extractModelFromMeter it.meterName it.productName
            = some (kv0.1, Direction.input) := by
          rw [hext]
          intro hcontra
          have hpair := Option.some.inj hcontra
          exact hk' (congrArg Prod.fst hpair).symm
        have hnoo : ¬ extractModelFromMeter it.meterName it.productName
            = some (kv0.1, Direction.output) := by
          rw [hext]
          intro hcontra
          have hpair := Option.some.inj hcontra
          exact hk' (congrArg Prod.fst hpair).symm
        constructor
        · rw [hin0]
          exact (snoc_iff_of_not
            (fun it' => extractModelFromMeter it'.meterName it'.productName
              = some (kv0.1, Direction.input)) seen it hnoi).symm
        · rw [hout0]
          exact (snoc_iff_of_not
            (fun it' => extractModelFromMeter it'.meterName it'.productName
              = some (kv0.1, Direction.output)) seen it hnoo).symm

/-- The invariant holds after folding any item list. -/
theorem foldl_stepPricing_inv (now : String) (items : List RawPriceItem) :
    ∀ (acc : List (String × PricingModel)) (seen : List RawPriceItem),
      PricingAccInv acc seen →
      PricingAccInv (items.foldl (stepPricing now) acc) (seen ++ items) := by
  induction items with
  | nil =>
    intro acc seen h
    simpa using h
  | cons it r ih =>
    intro acc seen h
    rw [List.foldl_cons]
    have h2 := ih (stepPricing now acc it) (seen ++ [it]) (stepPricing_inv now acc seen it h)
    simpa using h2

/-- C5.  `parsePricingData` emits at most one record per canonical model
(the emitted names are pairwise distinct), and it emits a record for a
model exactly when the response contains both an entry extracting to the
model's input direction and one extracting to its output direction; a
model with only one of the two observed prices is not emitted. -/
theorem c5_pricing_pairs (now : String) (items : List RawPriceItem) :
    ((parsePricingData now items).map PricingModel.name).Nodup
    ∧ ∀ m : String,
        (∃ r ∈ parsePricingData now items, r.name = m) ↔
          ((∃ it ∈ items, extractModelFromMeter it.meterName it.productName
              = some (m, Direction.input))
           ∧ (∃ it ∈ items, extractModelFromMeter it.meterName it.productName
              = some (m, Direction.output))) := by
  have hbase : PricingAccInv [] [] := by
    refine ⟨List.nodup_nil, ?_, ?_, ?_⟩
    · intro kv hkv
      exact absurd hkv (List.not_mem_nil kv)
    · intro k
      simp
    · intro kv hkv
      exact absurd hkv (List.not_mem_nil kv)
  have hinv := foldl_stepPricing_inv now items [] [] hbase
  rw [List.nil_append] at hinv
  obtain ⟨hnd, hname, hkeys, hfields⟩ := hinv
  have hout : parsePricingData now items
      = ((items.foldl (stepPricing now) []).map Prod.snd).filter
          (fun m => m.inputPrice.isSome && m.outputPrice.isSome) := rfl
  constructor
  · rw [hout]
    have hsub : ((((items.foldl (stepPricing now) []).map Prod.snd).filter
        (fun m => m.inputPrice.isSome && m.outputPrice.isSome)).map PricingModel.name).Sublist
        (((items.foldl (stepPricing now) []).map Prod.snd).map PricingModel.name) :=
      List.Sublist.map _ (List.filter_sublist _)
    have heq : ((items.foldl (stepPricing now) []).map Prod.snd).map PricingModel.name
        = (items.foldl (stepPricing now) []).map Prod.fst := by
      rw [List.map_map]
      refine List.map_congr_left (fun kv hkv => ?_)
      exact hname kv hkv
    exact List.Nodup.sublist hsub (heq ▸ hnd)
  · intro m
    rw [hout]
    constructor
    · rintro ⟨r, hr, hrm⟩
      rw [List.mem_filter] at hr
      obtain ⟨hrmem, hrp⟩ := hr
      rcases List.mem_map.mp hrmem with ⟨kv, hkv, rfl⟩
      have hk : kv.1 = m := by
        rw [← hname kv hkv]
        exact hrm
      obtain ⟨hin, hout'⟩ := hfields kv hkv
      rw [Bool.and_eq_true] at hrp
      subst hk
      exact ⟨hin.mp hrp.1, hout'.mp hrp.2⟩
    · rintro ⟨⟨iti, hiti, hdi⟩, ⟨ito, hito, hdo⟩⟩
      have hkmem : ∃ kv ∈ items.foldl (stepPricing now) [], kv.1 = m :=
        (hkeys m).mpr ⟨iti, hiti, Direction.input, hdi⟩
      obtain ⟨kv, hkv, hk⟩ := hkmem
      obtain ⟨hin, hout'⟩ := hfields kv hkv
      subst hk
      have h1 : kv.2.inputPrice.isSome = true := hin.mpr ⟨iti, hiti, hdi⟩
      have h2 : kv.2.outputPrice.isSome = true := hout'.mpr ⟨ito, hito, hdo⟩
      refine ⟨kv.2, ?_, hname kv hkv⟩
      rw [List.mem_filter]
      refine ⟨List.mem_map.mpr ⟨kv, hkv, rfl⟩, ?_⟩
      rw [Bool.and_eq_true]
      exact ⟨h1, h2⟩

/-! ## Summary helper lemmas -/

/-- A left fold accumulating `+ f x` is the sum of the mapped list. -/
theorem foldl_add_map {α M : Type _} [AddCommMonoid M] (f : α → M) (l : List α) (a : M) :
    l.foldl (fun s x => s + f x) a = a + (l.map f).sum := by
  induction l generalizing a with
  | nil => simp
  | cons x xs ih => simp [ih, add_assoc]

/-- Same for a fold accumulating two summands per element. -/
theorem foldl_add_map2 {α M : Type _} [AddCommMonoid M] (f g : α → M) (l : List α) (a : M) :
    l.foldl (fun s x => s + f x + g x) a = a + (l.map (fun x => f x + g x)).sum := by
  induction l generalizing a with
  | nil => simp
  | cons x xs ih =>
    rw [List.foldl_cons, ih, List.map_cons, List.sum_cons]
    ac_rfl

/-- `summary.totalCost` is the sum of the models' usage costs. -/
theorem calculateSummary_totalCost (models : List ModelSnap) (r : ℚ) :
    (calculateSummary models r).totalCost = (models.map (fun m => m.usage.totalCost)).sum := by
  show models.foldl (fun s m => s + m.usage.totalCost) 0 = _
  rw [foldl_add_map, zero_add]

/-- `summary.totalTokens` is the sum of input plus output tokens. -/
theorem calculateSummary_totalTokens (models : List ModelSnap) (r : ℚ) :
    (calculateSummary models r).totalTokens
      = (models.map (fun m => m.usage.inputTokens + m.usage.outputTokens)).sum := by
  show models.foldl (fun s m => s + m.usage.inputTokens + m.usage.outputTokens) 0 = _
  rw [foldl_add_map2, zero_add]

/-- `summary.totalRequests` is the sum of the models' request counts. -/
theorem calculateSummary_totalRequests (models : List ModelSnap) (r : ℚ) :
    (calculateSummary models r).totalRequests = (models.map (fun m => m.usage.requests)).sum := by
  show models.foldl (fun s m => s + m.usage.requests) 0 = _
  rw [foldl_add_map, zero_add]

/-- `summary.avgCostPerRequest` is the guarded division of the code. -/
theorem calculateSummary_avg (models : List ModelSnap) (r : ℚ) :
    (calculateSummary models r).avgCostPerRequest
      = if 0 < (calculateSummary models r).totalRequests then
          (calculateSummary models r).totalCost
            / ((calculateSummary models r).totalRequests : ℚ)
        else 0 := rfl

/-! ## C6 — usage fetch fallback feeds the snapshot -/

/-- C6.  When the cost query fails — or the token acquisition fails, so
the query is never issued — `fetchUsageData` returns the built-in
fallback usage mapping instead of propagating the failure, and the
snapshot build still succeeds, with `summary.totalCost` computed from
that fallback usage data. -/
theorem c6_usage_failure_fallback (s : ServiceState) (po : PricingOutcome)
    (ro : RatesOutcome) (env : Env) (e : String) (q : Except String (List UsageRow))
    (tokenEx : Except String String) :
    ((fetchUsageData s env tokenEx (.error e)).1 = getFallbackUsage)
    ∧ (∀ e', (getAzureAccessToken s env.nowMs tokenEx).result = .error e' →
        (fetchUsageData s env tokenEx q).1 = getFallbackUsage)
    ∧ ((getDashboardData s po tokenEx (.error e) ro none env).1.status = "success")
    ∧ ((getDashboardData s po tokenEx (.error e) ro none env).1.summary.map Summary.totalCost
        = some (((combineModelData env (fetchRealTimePricing s po env).1 getFallbackUsage).map
            (fun m => m.usage.totalCost)).sum)) := by
  refine ⟨fetchUsageData_queryErr s env tokenEx e, ?_, rfl, ?_⟩
  · intro e' h
    unfold fetchUsageData
    simp [h]
  · show some (Summary.totalCost (calculateSummary (combineModelData env
        (fetchRealTimePricing s po env).1
        (fetchUsageData (fetchRealTimePricing s po env).2 env tokenEx (.error e)).1)
        env.randPeak)) = _
    rw [fetchUsageData_queryErr, calculateSummary_totalCost]

/-- C6, witness: with no cached token and a rejected exchange, the usage
fetch returns the built-in fallback mapping. -/
theorem c6_witness :
    (getAzureAccessToken (initialState "westeurope" 0) envW.nowMs (.error "boom")).result
        = .error "boom"
    ∧ (fetchUsageData (initialState "westeurope" 0) envW (.error "boom") (.ok [])).1
        = getFallbackUsage :=
  ⟨rfl,
    (c6_usage_failure_fallback (initialState "westeurope" 0) .err .err envW "x" (.ok [])
      (.error "boom")).2.1 "boom" rfl⟩

/-! ## C7 — summary statistics -/

/-- The `reduce` of `topModel` selects the first element of
`init :: l` attaining the maximal total cost: the result splits the list
with a strictly smaller prefix and dominates every element. -/
theorem foldl_pickTop_first_max (l : List ModelSnap) (init : ModelSnap) :
    ∃ pre post, init :: l = pre ++ (l.foldl pickTop init) :: post
      ∧ (∀ p ∈ pre, p.usage.totalCost < (l.foldl pickTop init).usage.totalCost)
      ∧ (∀ m ∈ init :: l, m.usage.totalCost ≤ (l.foldl pickTop init).usage.totalCost) := by
  induction l generalizing init with
  | nil =>
    refine ⟨[], [], rfl, by simp, ?_⟩
    intro m hm
    rcases List.mem_singleton.mp hm with h
    subst h
    exact le_refl _
  | cons x xs ih =>
    rw [List.foldl_cons]
    rcases ih (pickTop init x) with ⟨pre, post, hsplit, hpre, hle⟩
    by_cases hc : init.usage.totalCost < x.usage.totalCost
    · have hx : pickTop init x = x := by simp [pickTop, hc]
      rw [hx] at hsplit hpre hle ⊢
      refine ⟨init :: pre, post, ?_, ?_, ?_⟩
      · rw [List.cons_append, ← hsplit]
      · intro p hp
        rcases List.mem_cons.mp hp with h | h
        · subst h
          exact lt_of_lt_of_le hc (hle x (List.mem_cons_self x xs))
        · exact hpre p h
      · intro m hm
        rcases List.mem_cons.mp hm with h | h
        · subst h
          exact le_of_lt (lt_of_lt_of_le hc (hle x (List.mem_cons_self x xs)))
        · exact hle m h
    · have hx : pickTop init x = init := by simp [pickTop, hc]
      rw [hx] at hsplit hpre hle ⊢
      have hxle : x.usage.totalCost ≤ init.usage.totalCost := le_of_not_lt hc
      cases pre with
      | nil =>
        simp only [List.nil_append] at hsplit
        injection hsplit with h1 h2
        rw [← h1] at hpre hle ⊢
        refine ⟨[], x :: xs, rfl, by simp, ?_⟩
        intro m hm
        rcases List.mem_cons.mp hm with h | h
        · subst h
          exact le_refl _
        rcases List.mem_cons.mp h with h' | h'
        · subst h'
          exact hxle
        · exact hle m (List.mem_cons_of_mem _ h')
      | cons q pre' =>
        simp only [List.cons_append] at hsplit
        injection hsplit with h1 h2
        subst h1
        have hinitlt : init.usage.totalCost
            < (xs.foldl pickTop init).usage.totalCost :=
          hpre init (List.mem_cons_self _ _)
        refine ⟨init :: x :: pre', post, ?_, ?_, ?_⟩
        · rw [List.cons_append, List.cons_append, ← h2]
        · intro p hp
          rcases List.mem_cons.mp hp with h | h
          · subst h
            exact hinitlt
          rcases List.mem_cons.mp h with h' | h'
          · subst h'
            exact lt_of_le_of_lt hxle hinitlt
          · exact hpre p (List.mem_cons_of_mem _ h')
        · intro m hm
          rcases List.mem_cons.mp hm with h | h
          · subst h
            exact le_of_lt hinitlt
          rcases List.mem_cons.mp h with h' | h'
          · subst h'
            exact le_trans hxle (le_of_lt hinitlt)
          · exact hle m (List.mem_cons_of_mem _ h')

/-- `topModel` of a nonempty list names a first-encountered maximum. -/
theorem calculateSummary_topModel_spec (m0 : ModelSnap) (rest : List ModelSnap) (r : ℚ) :
    ∃ pre t post, m0 :: rest = pre ++ t :: post
      ∧ (calculateSummary (m0 :: rest) r).topModel = some t.name
      ∧ (∀ p ∈ pre, p.usage.totalCost < t.usage.totalCost)
      ∧ (∀ m ∈ m0 :: rest, m.usage.totalCost ≤ t.usage.totalCost) := by
  have hfold : (m0 :: rest).foldl pickTop m0 = rest.foldl pickTop m0 := by
    rw [List.foldl_cons]
    congr 1
    simp [pickTop]
  rcases foldl_pickTop_first_max rest m0 with ⟨pre, post, hsplit, hpre, hle⟩
  refine ⟨pre, rest.foldl pickTop m0, post, hsplit, ?_, hpre, hle⟩
  show some (((m0 :: rest).foldl pickTop m0).name) = _
  rw [hfold]

/-- For a random draw in `[0, 1)` the code's peak hour is one of the five
hard-coded labels. -/
theorem calculatePeakHour_mem (models : List ModelSnap) (r : ℚ)
    (h0 : 0 ≤ r) (h1 : r < 1) :
    calculatePeakHour models r ∈ peakHours := by
  unfold calculatePeakHour
  have hlen : ((peakHours.length : ℚ)) = 5 := by norm_num [peakHours]
  rw [hlen]
  have hf0 : (0:ℤ) ≤ ⌊r * 5⌋ := Int.floor_nonneg.mpr (mul_nonneg h0 (by norm_num))
  have hf5 : ⌊r * 5⌋ < 5 := by
    apply Int.floor_lt.mpr
    push_cast
    linarith
  have hn : (⌊r * 5⌋).toNat < 5 := by omega
  have hall : ∀ i, i < 5 → peakHours.getD i "undefined" ∈ peakHours := by decide
  exact hall _ hn

/-- C7, counterexample.  The claim says `peakHour` is derived from the
largest-cost bucket across the models' short-interval series.  For a
model whose only bucket lies at 08:00 the spec's peak hour is "08:00",
but the code returns "14:00" (at random draw 0): `calculatePeakHour`
picks pseudo-randomly from a fixed list and ignores the models. -/
theorem c7_counterexample :
    (calculateSummary [c7model] 0).peakHour = "14:00"
    ∧ specPeakHour [c7model] = "08:00"
    ∧ (calculateSummary [c7model] 0).peakHour ≠ specPeakHour [c7model] := by
  have h1 : (calculateSummary [c7model] 0).peakHour = "14:00" := by
    show calculatePeakHour [c7model] 0 = "14:00"
    unfold calculatePeakHour
    rw [zero_mul, Int.floor_zero, Int.toNat_zero]
    rfl
  have h2 : specPeakHour [c7model] = "08:00" := rfl
  refine ⟨h1, h2, ?_⟩
  rw [h1, h2]
  decide

/-- C7, amended.  For a nonempty model list, `calculateSummary` computes
the reference sums, the guarded average (0 when there are no requests,
the exact quotient when there are), and the first-encountered maximal
model as `topModel`; `peakHour`, however, is drawn pseudo-randomly from
the fixed list 14:00–15:00 independently of the models, instead of being
derived from the largest-cost bucket. -/
theorem c7_summary_amended (m0 : ModelSnap) (rest : List ModelSnap) (r : ℚ)
    (h0 : 0 ≤ r) (h1 : r < 1) :
    (calculateSummary (m0 :: rest) r).totalCost
        = ((m0 :: rest).map (fun m => m.usage.totalCost)).sum
    ∧ (calculateSummary (m0 :: rest) r).totalTokens
        = ((m0 :: rest).map (fun m => m.usage.inputTokens + m.usage.outputTokens)).sum
    ∧ (calculateSummary (m0 :: rest) r).totalRequests
        = ((m0 :: rest).map (fun m => m.usage.requests)).sum
    ∧ ((calculateSummary (m0 :: rest) r).totalRequests = 0 →
        (calculateSummary (m0 :: rest) r).avgCostPerRequest = 0)
    ∧ (0 < (calculateSummary (m0 :: rest) r).totalRequests →
        (calculateSummary (m0 :: rest) r).avgCostPerRequest
          = (calculateSummary (m0 :: rest) r).totalCost
            / ((calculateSummary (m0 :: rest) r).totalRequests : ℚ))
    ∧ (∃ pre t post, m0 :: rest = pre ++ t :: post
        ∧ (calculateSummary (m0 :: rest) r).topModel = some t.name
        ∧ (∀ p ∈ pre, p.usage.totalCost < t.usage.totalCost)
        ∧ (∀ m ∈ m0 :: rest, m.usage.totalCost ≤ t.usage.totalCost))
    ∧ (calculateSummary (m0 :: rest) r).peakHour ∈ peakHours := by
  refine ⟨calculateSummary_totalCost _ _, calculateSummary_totalTokens _ _,
    calculateSummary_totalRequests _ _, ?_, ?_, calculateSummary_topModel_spec m0 rest r,
    calculatePeakHour_mem (m0 :: rest) r h0 h1⟩
  · intro hz
    rw [calculateSummary_avg, if_neg]
    rw [hz]
    exact lt_irrefl 0
  · intro hp
    rw [calculateSummary_avg, if_pos hp]

/-- C7, witness for the amended theorem at one model and draw 0. -/
theorem c7_witness :
    (0:ℚ) ≤ 0 ∧ (0:ℚ) < 1
    ∧ ((calculateSummary [c7model] 0).totalCost
        = ([c7model].map (fun m => m.usage.totalCost)).sum
      ∧ (calculateSummary [c7model] 0).totalTokens
          = ([c7model].map (fun m => m.usage.inputTokens + m.usage.outputTokens)).sum
      ∧ (calculateSummary [c7model] 0).totalRequests
          = ([c7model].map (fun m => m.usage.requests)).sum
      ∧ ((calculateSummary [c7model] 0).totalRequests = 0 →
          (calculateSummary [c7model] 0).avgCostPerRequest = 0)
      ∧ (0 < (calculateSummary [c7model] 0).totalRequests →
          (calculateSummary [c7model] 0).avgCostPerRequest
            = (calculateSummary [c7model] 0).totalCost
              / ((calculateSummary [c7model] 0).totalRequests : ℚ))
      ∧ (∃ pre t post, [c7model] = pre ++ t :: post
          ∧ (calculateSummary [c7model] 0).topModel = some t.name
          ∧ (∀ p ∈ pre, p.usage.totalCost < t.usage.totalCost)
          ∧ (∀ m ∈ [c7model], m.usage.totalCost ≤ t.usage.totalCost))
      ∧ (calculateSummary [c7model] 0).peakHour ∈ peakHours) :=
  ⟨le_refl 0, by norm_num, c7_summary_amended c7model [] 0 (le_refl 0) (by norm_num)⟩

/-! ## C8 — exchange-rate fetch fallback -/

/-- C8.  A failing exchange-rate fetch (request throws or response
non-OK) returns the previously cached rates value and leaves the whole
state — in particular the cached rates — unmodified. -/
theorem c8_exchange_rate_error_keeps_cache (s : ServiceState) (now : ℕ) :
    fetchExchangeRates s .err now = (s.exchangeRates, s) := rfl

/-! ## C9 — trend derivation and the gpt-4o merge scenario -/

/-- The code's trend equals the spec's: the formatted percentage change
between the two most recent daily entries, `+0%` below two entries. -/
theorem calculateTrend_eq_specTrend (d : List DailyEntry) :
    calculateTrend d = specTrend d := by
  rcases hrev : d.reverse with _ | ⟨b, rest⟩
  · have hd : d = [] := by
      have h := congrArg List.reverse hrev
      simpa using h
    subst hd
    rfl
  · rcases rest with _ | ⟨a, t⟩
    · have hd : d = [b] := by
        have h := congrArg List.reverse hrev
        simpa using h
      subst hd
      rfl
    · have hd : d = t.reverse ++ [a, b] := by
        have h := congrArg List.reverse hrev
        simpa using h
      subst hd
      have hlen : (t.reverse ++ [a, b]).length = t.length + 2 := by simp
      have hnlt : ¬ (t.reverse ++ [a, b]).length < 2 := by
        rw [hlen]
        omega
      have hdrop : (t.reverse ++ [a, b]).drop ((t.reverse ++ [a, b]).length - 2)
          = [a, b] := by
        have h2 : (t.reverse ++ [a, b]).length - 2 = t.reverse.length := by simp
        rw [h2, List.drop_left]
      have hrev2 : (t.reverse ++ [a, b]).reverse = b :: a :: t := by simp
      simp only [calculateTrend, specTrend]
      rw [if_neg hnlt, hdrop, hrev2]
      rfl

/-- C9.  The trend indicator is exactly the spec's definition, and the
spec's gpt-4o scenario — a both-prices gpt-4o catalog response merged
with a single zero-cost usage row — yields one snapshot with those two
prices, zero usage cost and trend `+0%`. -/
theorem c9_trend_and_scenario :
    (∀ d : List DailyEntry, calculateTrend d = specTrend d)
    ∧ (c9models.map (fun m => (m.name, m.inputPrice, m.outputPrice, m.trend))
        = [("gpt-4o", some 0.0000025, some 0.00001, "+0%")])
    ∧ (c9models.map (fun m => m.usage.totalCost) = [0]) := by
  refine ⟨calculateTrend_eq_specTrend, rfl, ?_⟩
  have h : c9models.map (fun m => m.usage.totalCost) = [(0:ℚ) + 0] := rfl
  rw [h]
  norm_num

end Dashboard
